import Mathlib

/-!
Verification of the CafeDelicia voice-ordering system.

This file gives a shallow embedding, in Lean 4, of the conversation
orchestration core of the CafeDelicia repository: the keyword-scan
extractor, the simulated conversational assistant, the LLM-driven
reconciliation, the retry loop around the external extractor, and the
Twilio conversation controller with its in-memory session registry.
Prices are modelled in integer cents (every price in the source is an
exact cent value and the JavaScript float arithmetic on the reachable
money values is exact, so the integer-cent model is faithful; 2.50
becomes 250).  JavaScript strings are
modelled as Lean strings, with the handful of regular expressions used
by the source (word tokenization, the two-capitalized-words name
pattern, the 7-to-10-digit phone pattern) implemented directly over
lists of characters following the backtracking semantics of the regex
engine on those fixed patterns.
-/

/-! ### String utilities shared by all source variants -/

/-- Word character in the sense of the JavaScript regex class backslash-w
without the unicode flag: ASCII letters, ASCII digits and underscore. -/
def isWordChar (c : Char) : Bool :=
  let n := c.toNat
  (65 ≤ n && n ≤ 90) || (97 ≤ n && n ≤ 122) || (48 ≤ n && n ≤ 57) || n == 95

/-- ASCII uppercase letter, the regex class A to Z. -/
def isUpperAZ (c : Char) : Bool :=
  65 ≤ c.toNat && c.toNat ≤ 90

/-- ASCII lowercase letter, the regex class a to z. -/
def isLowerAZ (c : Char) : Bool :=
  97 ≤ c.toNat && c.toNat ≤ 122

/-- Character-level model of String.prototype.toLowerCase restricted to the
characters that occur in the repository: ASCII letters plus the accented
Spanish uppercase vowels and Ñ. -/
def toLowerChar (c : Char) : Char :=
  if isUpperAZ c then Char.ofNat (c.toNat + 32)
  else if c = 'Á' then 'á'
  else if c = 'É' then 'é'
  else if c = 'Í' then 'í'
  else if c = 'Ó' then 'ó'
  else if c = 'Ú' then 'ú'
  else if c = 'Ñ' then 'ñ'
  else c

/-- Model of transcripcion.toLowerCase(). -/
def toLowerStr (s : String) : String :=
  ⟨s.data.map toLowerChar⟩

/-- Substring scan underlying String.prototype.includes: does pat occur as a
contiguous run inside s. -/
def subAux (pat : List Char) : List Char → Bool
  | [] => pat.isPrefixOf []
  | c :: rest => pat.isPrefixOf (c :: rest) || subAux pat rest

/-- Model of s.includes(k). -/
def includes (s k : String) : Bool :=
  subAux k.data s.data

/-- Maximal runs of word characters: the global matches of the regex
backslash-b(backslash-w+)backslash-b used to tokenize a transcript. -/
def wordsAux : List Char → List Char → List (List Char)
  | [], acc => if acc.isEmpty then [] else [acc.reverse]
  | c :: rest, acc =>
    if isWordChar c then wordsAux rest (c :: acc)
    else if acc.isEmpty then wordsAux rest []
    else acc.reverse :: wordsAux rest []

/-- Model of transcripcionLower.match(word regex) with an empty match list
collapsing to the empty token list. -/
def jsWords (s : String) : List String :=
  (wordsAux s.data []).map fun l => ⟨l⟩

/-- Two-digit rendering of a cents value below 100. -/
def pad2 (n : Nat) : String :=
  if n < 10 then "0" ++ toString n else toString n

/-- Model of total.toFixed(2) on a nonnegative whole-cent amount: totals in
the source are exact cent values, for which toFixed(2) prints the exact
two-decimal form and no rounding occurs. -/
def formatFixed2 (cents : Nat) : String :=
  toString (cents / 100) ++ "." ++ pad2 (cents % 100)

/-- JavaScript falsy-string fallback v 'or' old: undefined and the empty
string both fall back to old. -/
def jsOrStr (v : Option String) (old : String) : String :=
  match v with
  | some s => if s.isEmpty then old else s
  | none => old

/-! ### V1: the simulated keyword-scan barista (first AsistenteIA class) -/

namespace V1

/-- Keyword-map entry of the first simulated assistant: a base menu item with
its preparation area, a paid customization, or a costless upsell keyword.
The appliesTo list of customization entries is never read by the scan loop
and is omitted. -/
inductive Kw where
  | base (name : String) (area : String)
  | custom (name : String)
  | upsell (name : String)
deriving DecidableEq, Repr

/-- The fixed item price table itemPriceMap. -/
def itemPriceList : List (String × Nat) :=
  [("Café Americano", 250),
   ("Capuchino", 350),
   ("Latte de Vainilla", 375),
   ("Muffin de Arándanos", 200),
   ("Sándwich de Pavo", 650)]

/-- Price lookup in itemPriceMap; every base keyword name is present, so the
fallback 0 is never reached on the scan path. -/
def itemPrice (name : String) : Nat :=
  ((itemPriceList.lookup name).getD 0)

/-- The fixed customization surcharge customizationPrice, 0.75 in cents. -/
def customizationPrice : Nat := 75

/-- The keywordMap object, as an association list keyed by single tokens.
The two-token key 'pan dulce' is kept for fidelity although a single-word
token can never equal it. -/
def keywordList : List (String × Kw) :=
  [("americano", .base "Café Americano" "barra"),
   ("capuchino", .base "Capuchino" "barra"),
   ("latte", .base "Latte de Vainilla" "barra"),
   ("vainilla", .base "Latte de Vainilla" "barra"),
   ("muffin", .base "Muffin de Arándanos" "cocina"),
   ("arándanos", .base "Muffin de Arándanos" "cocina"),
   ("arándano", .base "Muffin de Arándanos" "cocina"),
   ("sándwich", .base "Sándwich de Pavo" "cocina"),
   ("pavo", .base "Sándwich de Pavo" "cocina"),
   ("avena", .custom "Leche de Avena"),
   ("almendra", .custom "Leche de Almendra"),
   ("shot", .custom "Shot Extra de Espresso"),
   ("crema", .custom "Crema Batida"),
   ("pan dulce", .upsell "Pan Dulce (Upsell)"),
   ("galleta", .upsell "Galleta (Upsell)")]

/-- Lookup keywordMap[word]. -/
def keywordMap (w : String) : Option Kw :=
  keywordList.lookup w

/-- An extracted base item: nombre, precio, area_preparacion. -/
structure Item where
  nombre : String
  precio : Nat
  area_preparacion : String
deriving DecidableEq, Repr

/-- An extracted customization: name and cost. -/
structure Custom where
  name : String
  cost : Nat
deriving DecidableEq, Repr

/-- The mutable extraction state of the scan loop in procesarOrden:
itemsEncontrados, personalizaciones, the running total and the
foundBaseNames set (modelled as the list of inserted names). -/
structure Scan where
  items : List Item
  personalizaciones : List Custom
  total : Nat
  foundBaseNames : List String
deriving DecidableEq, Repr

/-- One iteration of the scan loop body over a single token. -/
def scanWord (st : Scan) (w : String) : Scan :=
  match keywordMap w with
  | some (.base name area) =>
    if st.foundBaseNames.contains name then st
    else
      { items := st.items ++ [{ nombre := name, precio := itemPrice name, area_preparacion := area }],
        personalizaciones := st.personalizaciones,
        total := st.total + itemPrice name,
        foundBaseNames := st.foundBaseNames ++ [name] }
  | some (.custom name) =>
    let hasBarItem := st.items.any fun item => item.area_preparacion == "barra"
    if hasBarItem && !(st.personalizaciones.any fun c => c.name == name) then
      { st with
        personalizaciones := st.personalizaciones ++ [{ name := name, cost := customizationPrice }],
        total := st.total + customizationPrice }
    else st
  | some (.upsell _) => st
  | none => st

/-- The full scan loop over the tokens of the lowercased transcript. -/
def scanWords (ws : List String) : Scan :=
  ws.foldl scanWord { items := [], personalizaciones := [], total := 0, foundBaseNames := [] }

/-- The special case after the loop: a transcript that mentions café but
yielded no base item is resolved to one Café Americano. -/
def cafeFallback (lower : String) (st : Scan) : Scan :=
  if includes lower "café" && st.items.isEmpty then
    { st with
      items := st.items ++ [{ nombre := "Café Americano", precio := itemPrice "Café Americano", area_preparacion := "barra" }],
      total := st.total + itemPrice "Café Americano",
      foundBaseNames := st.foundBaseNames ++ ["Café Americano"] }
  else st

/-- The extraction part of procesarOrden: tokenize the lowercased transcript,
run the scan loop, then apply the café fallback. -/
def procesarOrdenScan (transcripcion : String) : Scan :=
  let lower := toLowerStr transcripcion
  cafeFallback lower (scanWords (jsWords lower))

/-- The items field of the object returned by procesarOrden (the message text
is derived from the same scan state and carries no further order data). -/
def procesarOrdenItems (transcripcion : String) : List Item :=
  (procesarOrdenScan transcripcion).items

/-- The keyword entry of the i-th token, when both exist. -/
def kwAt (ws : List String) (i : Nat) : Option Kw :=
  (ws[i]?).bind keywordMap

/-- Token i is a base keyword whose item is prepared at the bar. -/
def barraBaseAt (ws : List String) (i : Nat) : Prop :=
  ∃ n, kwAt ws i = some (.base n "barra")

instance (ws : List String) (i : Nat) : Decidable (barraBaseAt ws i) := by
  unfold barraBaseAt
  match h : kwAt ws i with
  | some (.base n a) =>
    exact if ha : a = "barra" then .isTrue ⟨n, by simp [h, ha]⟩ else
      .isFalse (by rintro ⟨m, hm⟩; simp [h] at hm; exact ha hm.2)
  | some (.custom n) => exact .isFalse (by rintro ⟨m, hm⟩; simp [h] at hm)
  | some (.upsell n) => exact .isFalse (by rintro ⟨m, hm⟩; simp [h] at hm)
  | none => exact .isFalse (by rintro ⟨m, hm⟩; simp [h] at hm)

end V1

/-! ### V2: the conversational simulated assistant (second AsistenteIA class) -/

namespace V2

/-- Is the next character position a word boundary (end of input or a
non-word character). -/
def boundaryAfter : List Char → Bool
  | [] => true
  | c :: _ => !isWordChar c

/-- Attempt to match the name regex (uppercase letter, lowercase run, space,
uppercase letter, lowercase run, word boundary) at the head of the list,
returning the matched characters.  Backtracking inside a lowercase run can
never rescue a failed boundary, so matching the maximal runs is exact. -/
def matchNombreAt (s : List Char) : Option (List Char) :=
  match s with
  | [] => none
  | c1 :: rest =>
    if isUpperAZ c1 then
      let (l1, r1) := rest.span isLowerAZ
      if l1.isEmpty then none
      else
        match r1 with
        | ' ' :: c2 :: rest2 =>
          if isUpperAZ c2 then
            let (l2, r2) := rest2.span isLowerAZ
            if !l2.isEmpty && boundaryAfter r2 then
              some (c1 :: l1 ++ ' ' :: c2 :: l2)
            else none
          else none
        | _ => none
    else none

/-- Left-to-right scan for the first match of the name regex; the leading
word boundary requires the previous character to be a non-word character. -/
def findNombreAux : Bool → List Char → Option (List Char)
  | _, [] => none
  | prevWord, c :: rest =>
    if prevWord then findNombreAux (isWordChar c) rest
    else
      match matchNombreAt (c :: rest) with
      | some m => some m
      | none => findNombreAux (isWordChar c) rest

/-- Model of transcripcion.match(name regex), first match only. -/
def findNombre (t : String) : Option String :=
  (findNombreAux false t.data).map fun l => ⟨l⟩

/-- Attempt to match the phone regex (word boundary, 7 to 10 digits, word
boundary) at the head of the list: the maximal digit run from here must
have length between 7 and 10 and be followed by a boundary, since giving
digits back in backtracking always leaves a digit adjacent to the required
trailing boundary. -/
def matchTelefonoAt (s : List Char) : Option (List Char) :=
  let (ds, rest) := s.span Char.isDigit
  if 7 ≤ ds.length && ds.length ≤ 10 && boundaryAfter rest then some ds else none

/-- Left-to-right scan for the first match of the phone regex. -/
def findTelefonoAux : Bool → List Char → Option (List Char)
  | _, [] => none
  | prevWord, c :: rest =>
    if prevWord then findTelefonoAux (isWordChar c) rest
    else
      match matchTelefonoAt (c :: rest) with
      | some m => some m
      | none => findTelefonoAux (isWordChar c) rest

/-- Model of s.replace(whitespace regex, empty).match(phone regex), first
match only. -/
def findTelefono (s : String) : Option String :=
  (findTelefonoAux false (s.data.filter fun c => !c.isWhitespace)).map fun l => ⟨l⟩

/-- A product of the knowledge base: nombre, precio (cents), area, detection
keywords, and an optional description. -/
structure Producto where
  nombre : String
  precio : Nat
  area : String
  keywords : List String
  descripcion : Option String := none
deriving DecidableEq, Repr

/-- A customization of the knowledge base: id, display name, precio (cents)
and detection keywords. -/
structure Personalizacion where
  id : String
  name : String
  precio : Nat
  keywords : List String
deriving DecidableEq, Repr

/-- knowledgeBase.productos. -/
def productos : List Producto :=
  [{ nombre := "Café Americano", precio := 350, area := "barra",
     keywords := ["americano", "café solo", "café negro"] },
   { nombre := "Capuchino", precio := 450, area := "barra",
     keywords := ["capuchino"] },
   { nombre := "Latte de Vainilla", precio := 500, area := "barra",
     keywords := ["latte", "vainilla"] },
   { nombre := "Sándwich de Pavo", precio := 500, area := "cocina",
     keywords := ["sándwich", "pavo"],
     descripcion := some "Nuestro sándwich de pavo viene con pan artesanal, pavo horneado, queso suizo, lechuga y tomate." },
   { nombre := "Muffin de Arándanos", precio := 300, area := "cocina",
     keywords := ["muffin", "arándano", "arándanos", "panecillo"],
     descripcion := some "Un muffin esponjoso horneado con arándanos frescos." }]

/-- knowledgeBase.personalizaciones. -/
def personalizacionesKB : List Personalizacion :=
  [{ id := "shot_espresso", name := "Shot Extra de Espresso", precio := 100,
     keywords := ["shot", "espresso", "extra de café"] },
   { id := "leche_almendra", name := "Leche de Almendra", precio := 75,
     keywords := ["almendra"] },
   { id := "leche_avena", name := "Leche de Avena", precio := 75,
     keywords := ["avena"] }]

/-- knowledgeBase.palabrasClavePreguntas. -/
def palabrasClavePreguntas : List String :=
  ["qué lleva", "ingredientes", "qué otros", "opciones", "tienes de postre"]

/-- knowledgeBase.palabrasClavePositivas. -/
def palabrasClavePositivas : List String :=
  ["sí", "si", "claro", "me gustaría", "añade"]

/-- knowledgeBase.palabrasClaveNegativas. -/
def palabrasClaveNegativas : List String :=
  ["no", "nada más", "eso es todo"]

/-- knowledgeBase.palabrasClavePago.ahora. -/
def palabrasClavePagoAhora : List String :=
  ["ahora", "teléfono", "aquí"]

/-- knowledgeBase.palabrasClavePago.llegar. -/
def palabrasClavePagoLlegar : List String :=
  ["llegar", "allá", "cafetería"]

/-- An item held in the conversation state, produced by spreading a product
and adding area_preparacion.  The spread also copies the keywords and the
description, which no later code reads; they are omitted here.  The precio
field is optional because calcularTotal guards it with a 0 fallback. -/
structure Item where
  nombre : String
  precio : Option Nat
  area : String
  area_preparacion : String
deriving DecidableEq, Repr

/-- A customization held in the conversation state (a knowledge-base
customization object); the precio field is optional because calcularTotal
guards it with a 0 fallback. -/
structure ItemCustom where
  id : String
  name : String
  precio : Option Nat
deriving DecidableEq, Repr

/-- The per-call conversation state created by the server for this
assistant. -/
structure Estado where
  caller : String
  callSid : String
  items : List Item
  personalizaciones : List ItemCustom
  total : Nat
  stage : String
  nombreCliente : String
  telefonoCliente : String
deriving DecidableEq, Repr

/-- The value returned by every handler: the message for the caller and the
updated state. -/
structure Respuesta where
  mensaje : String
  estadoActualizado : Estado
deriving DecidableEq, Repr

/-- Model of determinarIntencion: the ordered keyword and pattern tests. -/
def determinarIntencion (transcripcion : String) : String :=
  let texto := toLowerStr transcripcion
  if palabrasClavePreguntas.any fun k => includes texto k then "PREGUNTANDO"
  else if productos.any fun p => p.keywords.any fun k => includes texto k then "ORDENANDO"
  else if personalizacionesKB.any fun p => p.keywords.any fun k => includes texto k then "ORDENANDO"
  else if (findNombre transcripcion).isSome then "IDENTIFICACION"
  else if (findTelefono texto).isSome then "IDENTIFICACION"
  else if (palabrasClavePagoAhora.any fun k => includes texto k) ||
          (palabrasClavePagoLlegar.any fun k => includes texto k) then "PAGO"
  else if palabrasClavePositivas.any fun k => includes texto k then "CONFIRMANDO_SI"
  else if palabrasClaveNegativas.any fun k => includes texto k then "CONFIRMANDO_NO"
  else "DESCONOCIDO"

/-- Model of extraerDatosCliente: first name-pattern match and first
phone-pattern match of the transcript. -/
def extraerDatosCliente (transcripcion : String) : Option String × Option String :=
  (findNombre transcripcion, findTelefono transcripcion)

/-- Model of calcularTotal: item prices plus customization prices, each with
the 0 fallback for a missing price. -/
def calcularTotal (items : List Item) (personalizaciones : List ItemCustom) : Nat :=
  (items.foldl (fun sum item => sum + item.precio.getD 0) 0) +
  (personalizaciones.foldl (fun sum custom => sum + custom.precio.getD 0) 0)

/-- Model of procesarPedido: accumulate the newly detected products and
customizations, recompute the total, and pick the next stage from the
drink/food mix. -/
def procesarPedido (transcripcion : String) (estadoActual : Estado) : Respuesta :=
  let texto := toLowerStr transcripcion
  let itemsEncontrados : List Item :=
    (productos.filter fun producto =>
      (producto.keywords.any fun k => includes texto k) &&
      !(estadoActual.items.any fun i => i.nombre == producto.nombre)).map
      fun producto =>
        { nombre := producto.nombre, precio := some producto.precio,
          area := producto.area, area_preparacion := producto.area }
  let personalizacionesEncontradas : List ItemCustom :=
    (personalizacionesKB.filter fun custom =>
      (custom.keywords.any fun k => includes texto k) &&
      !(estadoActual.personalizaciones.any fun p => p.id == custom.id)).map
      fun custom => { id := custom.id, name := custom.name, precio := some custom.precio }
  let itemsActualizados := estadoActual.items ++ itemsEncontrados
  let personalizacionesActualizadas := estadoActual.personalizaciones ++ personalizacionesEncontradas
  let totalActualizado := calcularTotal itemsActualizados personalizacionesActualizadas
  let mensaje := "¡Anotado! " ++
    String.intercalate " y "
      (itemsEncontrados.map (fun i => i.nombre) ++ personalizacionesEncontradas.map fun p => p.name) ++ "."
  let tieneBebida := itemsActualizados.any fun i => i.area == "barra"
  let tieneComida := itemsActualizados.any fun i => i.area == "cocina"
  if tieneBebida && estadoActual.stage == "INITIAL_ORDER" then
    { mensaje := mensaje ++ " ¿Deseas alguna personalización como leche de avena o un shot extra de espresso?",
      estadoActualizado := { estadoActual with
        items := itemsActualizados
        personalizaciones := personalizacionesActualizadas
        total := totalActualizado
        stage := "CUSTOMIZATION" } }
  else if tieneBebida && tieneComida then
    { mensaje := mensaje ++ " ¡Excelente combinación! ¿Algo más para ti?",
      estadoActualizado := { estadoActual with
        items := itemsActualizados
        personalizaciones := personalizacionesActualizadas
        total := totalActualizado
        stage := "UPSELL_FINAL" } }
  else
    { mensaje := mensaje ++ " ¿Te gustaría añadir algo más a tu pedido?",
      estadoActualizado := { estadoActual with
        items := itemsActualizados
        personalizaciones := personalizacionesActualizadas
        total := totalActualizado
        stage := "UPSELL" } }

/-- Model of responderPregunta: answer a menu question, leaving the state
untouched.  When the sandwich lookup fails the JavaScript would throw on a
property of undefined; that branch is unreachable for the fixed knowledge
base, whose find always succeeds. -/
def responderPregunta (transcripcion : String) (estadoActual : Estado) : Respuesta :=
  let texto := toLowerStr transcripcion
  let mensaje :=
    if includes texto "postres" || includes texto "muffin" then
      "Claro, te cuento. " ++ "De postre, te puedo ofrecer " ++
        String.intercalate " o "
          ((productos.filter fun p => p.area == "cocina" && includes (toLowerStr p.nombre) "muffin").map
            fun p => p.nombre) ++ "."
    else if includes texto "sándwich" then
      match productos.find? fun p => includes p.nombre "Sándwich" with
      | some sandwich =>
        "Claro, te cuento. " ++ "El " ++ sandwich.nombre ++ " lleva " ++
          sandwich.descripcion.getD "undefined" ++ "."
      | none => "Claro, te cuento. "
    else
      "Puedes pedir cafés, sándwiches o muffins. ¿Qué te gustaría saber?"
  { mensaje := mensaje ++ " ¿Deseas ordenar algo de esto?", estadoActualizado := estadoActual }

/-- Model of procesarConfirmacionPositiva. -/
def procesarConfirmacionPositiva (estadoActual : Estado) : Respuesta :=
  if estadoActual.stage == "UPSELL" || estadoActual.stage == "UPSELL_FINAL" then
    { mensaje := "Genial, ¿qué más te gustaría añadir?", estadoActualizado := estadoActual }
  else
    { mensaje := "¿Sí a qué, disculpa? ¿Podrías ser más específico?", estadoActualizado := estadoActual }

/-- Model of generarResumen: the order summary with the formatted total,
moving the conversation to CONFIRMATION. -/
def generarResumen (estadoActual : Estado) : Respuesta :=
  let itemSummary0 := String.intercalate ", " (estadoActual.items.map fun item => item.nombre)
  let itemSummary :=
    if estadoActual.personalizaciones.length > 0 then
      itemSummary0 ++ " con " ++
        String.intercalate " y " (estadoActual.personalizaciones.map fun c => c.name) ++ "."
    else itemSummary0
  let totalFormat := formatFixed2 estadoActual.total
  { mensaje := "Muy bien. Entonces, tu pedido final es: " ++ itemSummary ++
      ". El total es de $" ++ totalFormat ++ ". ¿Es correcto?",
    estadoActualizado := { estadoActual with stage := "CONFIRMATION" } }

/-- Model of procesarConfirmacionNegativa: a negative answer goes straight to
the order summary. -/
def procesarConfirmacionNegativa (estadoActual : Estado) : Respuesta :=
  generarResumen estadoActual

/-- Model of procesarPago: record the payment preference and move to
IDENTIFICATION. -/
def procesarPago (transcripcion : String) (estadoActual : Estado) : Respuesta :=
  let texto := toLowerStr transcripcion
  let estadoActualizado := { estadoActual with stage := "IDENTIFICATION" }
  if palabrasClavePagoAhora.any fun k => includes texto k then
    { mensaje := "Entendido, pagarás ahora. (Simulación: El pago se procesaría aquí). Para registrar tu pedido, por favor dime tu nombre y número de teléfono.",
      estadoActualizado := estadoActualizado }
  else
    { mensaje := "Perfecto, pagarás al llegar. Para registrar tu pedido, por favor dime tu nombre y número de teléfono.",
      estadoActualizado := estadoActualizado }

/-- Model of procesarIdentificacion: record whatever name and phone were
extracted; when at least one was found the order is marked FINALIZED. -/
def procesarIdentificacion (transcripcion : String) (estadoActual : Estado) : Respuesta :=
  let (nombre, telefono) := extraerDatosCliente transcripcion
  let estado1 :=
    match nombre with
    | some n => { estadoActual with nombreCliente := n }
    | none => estadoActual
  let estado2 :=
    match telefono with
    | some t => { estado1 with telefonoCliente := t }
    | none => estado1
  let mensaje1 :=
    (match nombre with
     | some n => "Nombre " ++ n ++ " registrado. "
     | none => "") ++
    (match telefono with
     | some t => "Teléfono " ++ t ++ " registrado. "
     | none => "")
  if nombre.isNone && telefono.isNone then
    { mensaje := "No pude entender tu nombre o teléfono. ¿Podrías repetirlo, por favor?",
      estadoActualizado := estado2 }
  else
    { mensaje := mensaje1 ++ "¡Gracias! Tu pedido está listo para ser registrado.",
      estadoActualizado := { estado2 with stage := "FINALIZED" } }

/-- Model of procesarConversacion: dispatch on the detected intention, with
the apologetic default for anything unrecognized. -/
def procesarConversacion (transcripcion : String) (estadoActual : Estado) : Respuesta :=
  match determinarIntencion transcripcion with
  | "ORDENANDO" => procesarPedido transcripcion estadoActual
  | "PREGUNTANDO" => responderPregunta transcripcion estadoActual
  | "CONFIRMANDO_SI" => procesarConfirmacionPositiva estadoActual
  | "CONFIRMANDO_NO" => procesarConfirmacionNegativa estadoActual
  | "PAGO" => procesarPago transcripcion estadoActual
  | "IDENTIFICACION" => procesarIdentificacion transcripcion estadoActual
  | _ => { mensaje := "Lo siento, no te entendí. ¿Podrías repetirlo?", estadoActualizado := estadoActual }

end V2

/-! ### P0: the LLM-driven assistant (part_000), whose reconciliation applies
the structured oracle result to the conversation state -/

namespace P0

/-- An item of the items_update array of the oracle result schema: nombre,
optional personalizaciones, and area_preparacion. -/
structure ItemLLM where
  nombre : String
  personalizaciones : Option (List String) := none
  area_preparacion : String
deriving DecidableEq, Repr

/-- The conversation state reconciled by this assistant.  The
pendingTranscript field models the object key of that name: no code in the
repository ever writes it, so reading it always yields undefined (none);
it is carried so that statements about it can be expressed. -/
structure Estado where
  caller : String
  callSid : String
  items : List ItemLLM
  total : Nat
  stage : String
  nombreCliente : String
  telefonoCliente : Option String
  pendingTranscript : Option String := none
deriving DecidableEq, Repr

/-- The parsed structured oracle response (the JSON schema of the class):
next_stage, items_update and llm_response_text are required, the customer
fields are optional. -/
structure AiResponse where
  next_stage : String
  items_update : Option (List ItemLLM)
  nombre_cliente : Option String := none
  telefono_cliente : Option String := none
  llm_response_text : String
deriving DecidableEq, Repr

/-- The handler result: message plus updated state. -/
structure Respuesta where
  mensaje : String
  estadoActualizado : Estado
deriving DecidableEq, Repr

/-- JavaScript falsy fallback onto the misspelled estadoActual.telefonocliente,
which is undefined: an absent or empty oracle phone leaves the field
undefined. -/
def jsOrTelefono (v : Option String) : Option String :=
  match v with
  | some s => if s.isEmpty then none else some s
  | none => none

/-- Model of procesarConversacion of part_000.  The network call, the empty
response check and the JSON parse are modelled by the oracle argument:
some r is a successfully parsed structured response, none is any failure
reaching the catch block (network error, empty candidate text, parse
error).  On success the oracle result is applied to the state; on failure
the fixed apology is returned with the state untouched. -/
def procesarConversacion (transcripcion : String) (estadoActual : Estado)
    (oracle : Option AiResponse) : Respuesta :=
  match oracle with
  | some aiResponse =>
    { mensaje := aiResponse.llm_response_text,
      estadoActualizado := { estadoActual with
        stage := aiResponse.next_stage
        items := aiResponse.items_update.getD []
        nombreCliente := jsOrStr aiResponse.nombre_cliente estadoActual.nombreCliente
        telefonoCliente := jsOrTelefono aiResponse.telefono_cliente } }
  | none =>
    { mensaje := "Lo siento, mi conexión con la cocina está fallando. ¿Podrías repetir tu pedido por favor?",
      estadoActualizado := estadoActual }

end P0

/-! ### P1: the Gemini order extractor with bounded retries (part_001) -/

namespace P1

/-- An item of the structured extraction result: nombre and cantidad. -/
structure ItemCant where
  nombre : String
  cantidad : Nat
deriving DecidableEq, Repr

/-- The observable outcome of one retry round: the final result, the number
of attempts actually made, and the backoff delays (milliseconds) slept
between consecutive attempts. -/
structure RetryOutcome (α : Type) where
  result : Except String α
  attempts : Nat
  delays : List Nat
deriving Repr

/-- The error message thrown after the last failed attempt. -/
def failMsg (maxRetries : Nat) (lastError : String) : String :=
  "Fallo de la API de Gemini después de " ++ toString maxRetries ++
    " intentos. Último error: " ++ lastError

/-- The loop body of makeApiCallWithRetry: remaining counts the iterations
left, i is the loop index, and attempt i is the outcome of the i-th axios
call.  A failure before the last iteration sleeps for 2 to the i times
1000 plus the random jitter draw for that iteration (Math.random()*1000,
modelled as a supplied whole-millisecond draw), exactly as the source
computes the delay. -/
def retryLoop (attempt : Nat → Except String α) (jitter : Nat → Nat)
    (maxRetries : Nat) : Nat → Nat → String → RetryOutcome α
  | 0, i, lastError => { result := .error (failMsg maxRetries lastError), attempts := i, delays := [] }
  | remaining + 1, i, lastError =>
    match attempt i with
    | .ok d => { result := .ok d, attempts := i + 1, delays := [] }
    | .error e =>
      if remaining = 0 then
        { result := .error (failMsg maxRetries e), attempts := i + 1, delays := [] }
      else
        let delay := 2 ^ i * 1000 + jitter i
        let rest := retryLoop attempt jitter maxRetries remaining (i + 1) e
        { result := rest.result, attempts := rest.attempts, delays := delay :: rest.delays }

/-- Model of makeApiCallWithRetry with its default ceiling parameter
maxRetries = 5.  The lastError accumulator starts from the null initial
value, which is only reachable in the vacuous maxRetries = 0 case. -/
def makeApiCallWithRetry (attempt : Nat → Except String α) (jitter : Nat → Nat)
    (maxRetries : Nat := 5) : RetryOutcome α :=
  retryLoop attempt jitter maxRetries maxRetries 0 "null"

/-- Model of the tail of procesarOrden of part_001: the retry outcome is
either a parsed payload (some items when the candidate text existed and
parsed as an array, none otherwise) or the thrown retry error; the catch
block and every degenerate payload collapse to the empty item list, and a
parsed array is filtered to positive quantities with nonempty names. -/
def procesarOrden (retryResult : Except String (Option (List ItemCant))) : List ItemCant :=
  match retryResult with
  | .error _ => []
  | .ok none => []
  | .ok (some parsedItems) => parsedItems.filter fun item => 0 < item.cantidad && !item.nombre.isEmpty

end P1

/-! ### P5: the unified Twilio conversation controller and its session
registry (part_005) -/

namespace P5

/-- An order row as returned by the persistence collaborator: the generated
identifier and the stored items (enriched with their preparation areas). -/
structure Orden where
  id : Nat
  items : List V2.Item
deriving DecidableEq, Repr

/-- The process-wide conversationState map from CallSid to state. -/
def Registry := String → Option V2.Estado

/-- Model of getOrCreateState: return the existing state, or install and
return a fresh one. -/
def newState (caller callSid : String) : V2.Estado :=
  { caller := caller, callSid := callSid, items := [], personalizaciones := [],
    total := 0, stage := "INITIAL_ORDER", nombreCliente := "Cliente Anónimo",
    telefonoCliente := caller }

/-- Model of getOrCreateState, returning the state for this turn together
with the registry after the call. -/
def getOrCreateState (registry : Registry) (caller callSid : String) :
    V2.Estado × Registry :=
  match registry callSid with
  | some st => (st, registry)
  | none =>
    let st := newState caller callSid
    (st, fun s => if s == callSid then some st else registry s)

/-- Model of updateState: a no-op when the key is absent; otherwise the
spread of the old state with the updates object, which here is a complete
state and therefore replaces every field. -/
def updateState (registry : Registry) (callSid : String) (updates : V2.Estado) : Registry :=
  match registry callSid with
  | some _ => fun s => if s == callSid then some updates else registry s
  | none => registry

/-- Model of deleteState. -/
def deleteState (registry : Registry) (callSid : String) : Registry :=
  fun s => if s == callSid then none else registry s

/-- Model of the grouping object built by procesarNotificaciones: items
partitioned by area_preparacion (with the falsy fallback to general), in
first-occurrence key order, each group in item order. -/
def insertGroup : List (String × List V2.Item) → String → V2.Item → List (String × List V2.Item)
  | [], area, item => [(area, [item])]
  | (a, l) :: rest, area, item =>
    if a == area then (a, l ++ [item]) :: rest
    else (a, l) :: insertGroup rest area item

/-- Model of the reduce in procesarNotificaciones. -/
def itemsPorArea (items : List V2.Item) : List (String × List V2.Item) :=
  items.foldl
    (fun acc item =>
      insertGroup acc (if item.area_preparacion.isEmpty then "general" else item.area_preparacion) item)
    []

/-- The fixed greeting of the first turn. -/
def saludoInicial : String :=
  "¡Hola! Bienvenido a Cafe Delicia. ¿Qué te gustaría ordenar hoy?"

/-- The final utterance of a registered order, containing the returned order
identifier. -/
def cierreOrden (id : Nat) : String :=
  "Tu orden ha sido registrada con el número " ++ toString id ++ ". ¡Gracias por llamar a Cafe Delicia!"

/-- The global error handler utterance for Twilio routes. -/
def errorGlobal : String :=
  "Lo sentimos, ha ocurrido un error en el sistema. Por favor, inténtelo de nuevo más tarde."

/-- The transcript string handed to the persistence collaborator for a
finalized order. -/
def transcripcionFinal (ef : V2.Estado) : String :=
  "Pedido de " ++ ef.nombreCliente ++ " (" ++ ef.telefonoCliente ++ "). Total: $" ++
    formatFixed2 ef.total ++ ". Items: " ++
    String.intercalate ", " (ef.items.map fun i => i.nombre) ++ "."

/-- The observable effects of one POST to the twilio-conversation route: the
registry afterwards, the utterances spoken in the response that was sent,
whether the response hangs up (otherwise it gathers the next turn),
whether the oracle (procesarConversacion) was invoked, the arguments
handed to db.agregarOrden when a write was attempted (items, telefono,
transcripcion, nombreCliente), and the per-area notification handoffs. -/
structure TurnResult where
  registry : Registry
  utterances : List String
  hangup : Bool
  oracleInvoked : Bool
  dbWrite : Option (List V2.Item × String × String × String)
  notifications : List (String × List V2.Item)

/-- Model of the twilio-conversation route handler for one turn.  The
assistant is the ia argument (the await of procesarConversacion); the
persistence outcome is the dbResult argument, where none models a rejected
agregarOrden promise, which reaches the global error handler: that handler
deletes the call state and sends a response holding only the error
utterance and a hangup. -/
def twilioConversation (registry : Registry) (ia : String → V2.Estado → V2.Respuesta)
    (dbResult : Option Orden) (caller callSid : String) (speechResult : Option String) :
    TurnResult :=
  let (estadoActual, registry1) := getOrCreateState registry caller callSid
  match speechResult with
  | none =>
    { registry := registry1, utterances := [saludoInicial], hangup := false,
      oracleInvoked := false, dbWrite := none, notifications := [] }
  | some sr =>
    let respuestaIA := ia sr estadoActual
    let registry2 := updateState registry1 callSid respuestaIA.estadoActualizado
    if respuestaIA.estadoActualizado.stage == "FINALIZED" then
      let estadoFinal := respuestaIA.estadoActualizado
      let write := (estadoFinal.items, estadoFinal.telefonoCliente,
        transcripcionFinal estadoFinal, estadoFinal.nombreCliente)
      match dbResult with
      | some nuevaOrden =>
        { registry := deleteState registry2 callSid,
          utterances := [respuestaIA.mensaje, cierreOrden nuevaOrden.id],
          hangup := true, oracleInvoked := true, dbWrite := some write,
          notifications := itemsPorArea nuevaOrden.items }
      | none =>
        { registry := deleteState registry2 callSid,
          utterances := [errorGlobal], hangup := true, oracleInvoked := true,
          dbWrite := some write, notifications := [] }
    else
      { registry := registry2, utterances := [respuestaIA.mensaje], hangup := false,
        oracleInvoked := true, dbWrite := none, notifications := [] }

end P5

/-! ### Concrete sample data used to evaluate the development -/

/-- A sample mid-call state: one capuchino ordered, payment settled, waiting
for the caller's identification. -/
def estadoCapuchino : V2.Estado :=
  { caller := "+5215550001", callSid := "CA800",
    items := [{ nombre := "Capuchino", precio := some 450, area := "barra",
                area_preparacion := "barra" }],
    personalizaciones := [], total := 450, stage := "IDENTIFICATION",
    nombreCliente := "Cliente Anónimo", telefonoCliente := "+5215550001" }

/-- A sample stored order as returned by the persistence collaborator. -/
def ordenCapuchino : P5.Orden :=
  { id := 42,
    items := [{ nombre := "Capuchino", precio := some 450, area := "barra",
                area_preparacion := "barra" }] }

/-- A sample registry holding exactly the capuchino session. -/
def registryCapuchino : P5.Registry :=
  fun s => if s == "CA800" then some estadoCapuchino else none

/-! ### Properties referenced by the claims -/

/-- The derived-total invariant of a conversation state: the stored total is
the recomputation from the stored items and customizations. -/
abbrev totalInv (st : V2.Estado) : Prop :=
  st.total = V2.calcularTotal st.items st.personalizaciones

/-- Item names are pairwise distinct within a state's item sequence. -/
abbrev nodupNombres (items : List V2.Item) : Prop :=
  (items.map fun i => i.nombre).Nodup

/-- Position i of the token list holds a customization keyword for name n
while some strictly earlier position holds a bar-area base keyword: the
condition under which the scan loop of the keyword extractor charges the
customization named n. -/
abbrev customCharged (ws : List String) (n : String) : Prop :=
  ∃ i, V1.kwAt ws i = some (.custom n) ∧ ∃ j, j < i ∧ V1.barraBaseAt ws j

/-- The loop invariant of the keyword scan, relating the running extraction
state to the prefix of tokens processed so far: customizations are charged
exactly per customCharged, once per distinct name at the fixed surcharge,
the running total decomposes into item prices plus the surcharge per
customization, a bar item exists exactly when a bar base keyword has been
seen, every item's name and area come from a keyword entry, and the found
names are the item names. -/
abbrev ScanInv (p : List String) (st : V1.Scan) : Prop :=
  (∀ n, (∃ c ∈ st.personalizaciones, c.name = n) ↔ customCharged p n) ∧
  (∀ c ∈ st.personalizaciones, c.cost = V1.customizationPrice) ∧
  (st.personalizaciones.map fun c => c.name).Nodup ∧
  st.total = st.items.foldl (fun s i => s + i.precio) 0 +
    V1.customizationPrice * st.personalizaciones.length ∧
  ((∃ item ∈ st.items, item.area_preparacion = "barra") ↔ ∃ j, V1.barraBaseAt p j) ∧
  (∀ item ∈ st.items, ∃ w, (w, V1.Kw.base item.nombre item.area_preparacion) ∈ V1.keywordList) ∧
  (∀ n, n ∈ st.foundBaseNames ↔ ∃ item ∈ st.items, item.nombre = n)

/-! ### Helper lemmas on the string model -/

/-- Appending preserves the data list. -/
theorem string_data_append (a b : String) : (a ++ b).data = a.data ++ b.data := by
  cases a; cases b; rfl

/-- A list is a Boolean prefix of itself followed by anything. -/
theorem isPrefixOf_append_self (p b : List Char) : p.isPrefixOf (p ++ b) = true := by
  rw [List.isPrefixOf_iff_prefix]
  exact List.prefix_append p b

/-- The substring scan succeeds when the pattern is a prefix. -/
theorem subAux_of_isPrefixOf (p s : List Char) (h : p.isPrefixOf s = true) :
    subAux p s = true := by
  cases s with
  | nil => simpa [subAux] using h
  | cons c rest => simp [subAux, h]

/-- The substring scan is monotone under extending the text on the left. -/
theorem subAux_cons (p : List Char) (c : Char) (rest : List Char)
    (h : subAux p rest = true) : subAux p (c :: rest) = true := by
  simp [subAux, h]

/-- The substring scan finds a pattern sitting in the middle of the text. -/
theorem subAux_middle (p a b : List Char) : subAux p (a ++ (p ++ b)) = true := by
  induction a with
  | nil => exact subAux_of_isPrefixOf p (p ++ b) (isPrefixOf_append_self p b)
  | cons c a ih => exact subAux_cons p c (a ++ (p ++ b)) ih

/-- The includes test succeeds on a middle segment of an appended string. -/
theorem includes_append_middle (x p y : String) : includes (x ++ p ++ y) p = true := by
  unfold includes
  rw [string_data_append, string_data_append, List.append_assoc]
  exact subAux_middle p.data x.data y.data

/-! ### C1 -/

/-- C1 (counterexample): the reconciliation has no identification guard.  In
part_000, an oracle result proposing FINALIZED while the customer name is
the anonymous sentinel leaves the order FINALIZED, not IDENTIFICATION; and
at the other cited site, the simulated assistant finalizes an order from a
phone-only identification turn while the name is still the sentinel. -/
theorem c1_no_guard_counterexample :
    (let st : P0.Estado :=
      { caller := "+5215550001", callSid := "CA100", items := [], total := 0,
        stage := "CONFIRMATION", nombreCliente := "Cliente Anónimo",
        telefonoCliente := some "+5215550001" }
     let r : P0.AiResponse :=
      { next_stage := "FINALIZED", items_update := some [],
        nombre_cliente := some "Cliente Anónimo",
        llm_response_text := "Perfecto, tu orden quedó registrada." }
     (P0.procesarConversacion "eso es todo" st (some r)).estadoActualizado.stage = "FINALIZED" ∧
     (P0.procesarConversacion "eso es todo" st (some r)).estadoActualizado.stage ≠ "IDENTIFICATION" ∧
     (P0.procesarConversacion "eso es todo" st (some r)).estadoActualizado.nombreCliente = "Cliente Anónimo") ∧
    (let stv : V2.Estado :=
      { caller := "+5215550001", callSid := "CA101",
        items := [{ nombre := "Capuchino", precio := some 450, area := "barra", area_preparacion := "barra" }],
        personalizaciones := [], total := 450, stage := "IDENTIFICATION",
        nombreCliente := "Cliente Anónimo", telefonoCliente := "+5215550001" }
     (V2.procesarConversacion "5551234567" stv).estadoActualizado.stage = "FINALIZED" ∧
     (V2.procesarConversacion "5551234567" stv).estadoActualizado.nombreCliente = "Cliente Anónimo") := by
  decide

/-- C1 (amended): the reconciliation of part_000 sets the resulting stage to
the oracle's proposed next_stage unconditionally; in particular a proposal
of FINALIZED while customerName is still the anonymous sentinel results in
FINALIZED, never IDENTIFICATION. -/
theorem c1_reconcile_stage_unconditional (t : String) (st : P0.Estado) (r : P0.AiResponse)
    (hfin : r.next_stage = "FINALIZED") (hanon : st.nombreCliente = "Cliente Anónimo") :
    (P0.procesarConversacion t st (some r)).estadoActualizado.stage = "FINALIZED" ∧
    (P0.procesarConversacion t st (some r)).estadoActualizado.stage ≠ "IDENTIFICATION" := by
  constructor
  · simpa [P0.procesarConversacion] using hfin
  · simp [P0.procesarConversacion, hfin]

/-- C1 (witness for the amended theorem at a concrete oracle result). -/
theorem c1_reconcile_stage_unconditional_witness :
    (P0.procesarConversacion "eso es todo"
      { caller := "+5215550001", callSid := "CA102", items := [], total := 0,
        stage := "CONFIRMATION", nombreCliente := "Cliente Anónimo",
        telefonoCliente := none }
      (some { next_stage := "FINALIZED", items_update := some [],
              llm_response_text := "Listo." })).estadoActualizado.stage = "FINALIZED" ∧
    (P0.procesarConversacion "eso es todo"
      { caller := "+5215550001", callSid := "CA102", items := [], total := 0,
        stage := "CONFIRMATION", nombreCliente := "Cliente Anónimo",
        telefonoCliente := none }
      (some { next_stage := "FINALIZED", items_update := some [],
              llm_response_text := "Listo." })).estadoActualizado.stage ≠ "IDENTIFICATION" :=
  c1_reconcile_stage_unconditional "eso es todo" _ _ (by decide) (by decide)

/-! ### C2 -/

/-- C2 (counterexample): after a failed oracle turn the state's
pendingTranscript is not the failed transcript — no code in the repository
ever writes that field, so it is still unset. -/
theorem c2_pending_transcript_counterexample :
    (P0.procesarConversacion "quiero un capuchino"
      { caller := "+5215550001", callSid := "CA200", items := [], total := 0,
        stage := "INITIAL_ORDER", nombreCliente := "Cliente Anónimo",
        telefonoCliente := some "+5215550001" }
      none).estadoActualizado.pendingTranscript ≠ some "quiero un capuchino" := by
  decide

/-- C2 (amended): on an oracle failure the conversation state — in
particular its stage, items and total — is returned bit-for-bit unchanged,
and the fixed apology asking the caller to repeat is emitted; no
pendingTranscript is recorded (the state still carries none there). -/
theorem c2_failure_preserves_state (t : String) (st : P0.Estado) :
    (P0.procesarConversacion t st none).estadoActualizado = st ∧
    (P0.procesarConversacion t st none).estadoActualizado.stage = st.stage ∧
    (P0.procesarConversacion t st none).estadoActualizado.items = st.items ∧
    (P0.procesarConversacion t st none).estadoActualizado.total = st.total ∧
    (P0.procesarConversacion t st none).estadoActualizado.pendingTranscript = st.pendingTranscript ∧
    (P0.procesarConversacion t st none).mensaje =
      "Lo siento, mi conexión con la cocina está fallando. ¿Podrías repetir tu pedido por favor?" := by
  exact ⟨rfl, rfl, rfl, rfl, rfl, rfl⟩

/-! ### C6 -/

/-- C6: under at least five consecutive extractor failures the retry helper
makes exactly its default ceiling of five attempts, sleeping the
exponential-backoff delays between consecutive attempts, ends in the
thrown retry error rather than a success, and the surrounding procesarOrden
catches that error at its boundary and returns the empty extraction. -/
theorem c6_retry_ceiling (attempt : Nat → Except String (Option (List P1.ItemCant)))
    (jitter : Nat → Nat) (hfail : ∀ i, i < 5 → ∃ e, attempt i = .error e) :
    (P1.makeApiCallWithRetry attempt jitter).attempts = 5 ∧
    (P1.makeApiCallWithRetry attempt jitter).delays =
      [1000 + jitter 0, 2000 + jitter 1, 4000 + jitter 2, 8000 + jitter 3] ∧
    (∃ e, (P1.makeApiCallWithRetry attempt jitter).result = .error e) ∧
    P1.procesarOrden (P1.makeApiCallWithRetry attempt jitter).result = [] := by
  obtain ⟨e0, h0⟩ := hfail 0 (by decide)
  obtain ⟨e1, h1⟩ := hfail 1 (by decide)
  obtain ⟨e2, h2⟩ := hfail 2 (by decide)
  obtain ⟨e3, h3⟩ := hfail 3 (by decide)
  obtain ⟨e4, h4⟩ := hfail 4 (by decide)
  refine ⟨?_, ?_, ?_, ?_⟩ <;>
    simp [P1.makeApiCallWithRetry, P1.retryLoop, P1.procesarOrden, h0, h1, h2, h3, h4]

/-- C6 (witness at a concretely failing extractor). -/
theorem c6_retry_ceiling_witness :
    (P1.makeApiCallWithRetry (fun _ => .error "timeout of 15000ms exceeded") (fun _ => 0)
      : P1.RetryOutcome (Option (List P1.ItemCant))).attempts = 5 ∧
    (P1.makeApiCallWithRetry (fun _ => .error "timeout of 15000ms exceeded") (fun _ => 0)
      : P1.RetryOutcome (Option (List P1.ItemCant))).delays = [1000, 2000, 4000, 8000] ∧
    (∃ e, (P1.makeApiCallWithRetry (fun _ => .error "timeout of 15000ms exceeded") (fun _ => 0)
      : P1.RetryOutcome (Option (List P1.ItemCant))).result = .error e) ∧
    P1.procesarOrden (P1.makeApiCallWithRetry (fun _ => .error "timeout of 15000ms exceeded")
      (fun _ => 0)).result = [] :=
  c6_retry_ceiling (fun _ => .error "timeout of 15000ms exceeded") (fun _ => 0)
    (fun i _ => ⟨"timeout of 15000ms exceeded", rfl⟩)

/-! ### C9 -/

/-- An empty extraction can hold no customizations, no charge and no found
names; this is preserved across one scan-loop iteration because a
customization is only charged when a bar item was already pushed. -/
theorem scanWord_empty_inv (st : V1.Scan) (w : String)
    (hq : st.items = [] → st.personalizaciones = [] ∧ st.total = 0 ∧ st.foundBaseNames = []) :
    (V1.scanWord st w).items = [] →
      (V1.scanWord st w).personalizaciones = [] ∧ (V1.scanWord st w).total = 0 ∧
      (V1.scanWord st w).foundBaseNames = [] := by
  simp only [V1.scanWord]
  split
  · split
    · exact hq
    · intro hempty
      simp at hempty
  · split
    · rename_i hcond
      intro hempty
      simp only at hempty
      rw [hempty] at hcond
      simp at hcond
    · exact hq
  · exact hq
  · exact hq

/-- The empty-extraction property holds of the scan of any token list. -/
theorem scanWords_empty_inv (ws : List String) :
    (V1.scanWords ws).items = [] →
      (V1.scanWords ws).personalizaciones = [] ∧ (V1.scanWords ws).total = 0 := by
  unfold V1.scanWords
  have main : ∀ (l : List String) (st : V1.Scan),
      (st.items = [] → st.personalizaciones = [] ∧ st.total = 0 ∧ st.foundBaseNames = []) →
      ((l.foldl V1.scanWord st).items = [] →
        (l.foldl V1.scanWord st).personalizaciones = [] ∧ (l.foldl V1.scanWord st).total = 0 ∧
        (l.foldl V1.scanWord st).foundBaseNames = []) := by
    intro l
    induction l with
    | nil => intro st hq; exact hq
    | cons w l ih => intro st hq; exact ih (V1.scanWord st w) (scanWord_empty_inv st w hq)
  intro h
  exact ⟨(main ws _ (fun _ => ⟨rfl, rfl, rfl⟩) h).1, (main ws _ (fun _ => ⟨rfl, rfl, rfl⟩) h).2.1⟩

/-- C9: a transcript whose lowercase form mentions café but from which the
keyword scan extracted no base item resolves to exactly one Café Americano
item, at its 2.50 price and bar preparation area, with the total equal to
that price rather than an empty order. -/
theorem c9_cafe_fallback (t : String)
    (hcafe : includes (toLowerStr t) "café" = true)
    (hnone : (V1.scanWords (jsWords (toLowerStr t))).items = []) :
    (V1.procesarOrdenScan t).items =
      [{ nombre := "Café Americano", precio := 250, area_preparacion := "barra" }] ∧
    (V1.procesarOrdenScan t).total = 250 ∧
    (V1.procesarOrdenScan t).personalizaciones = [] := by
  obtain ⟨hpers, htot⟩ := scanWords_empty_inv (jsWords (toLowerStr t)) hnone
  simp only [V1.procesarOrdenScan, V1.cafeFallback]
  rw [hcafe, hnone]
  simp [hpers, htot, V1.itemPrice, V1.itemPriceList]

/-- C9 (witness on a concrete café-only transcript). -/
theorem c9_cafe_fallback_witness :
    (V1.procesarOrdenScan "quiero un café").items =
      [{ nombre := "Café Americano", precio := 250, area_preparacion := "barra" }] ∧
    (V1.procesarOrdenScan "quiero un café").total = 250 ∧
    (V1.procesarOrdenScan "quiero un café").personalizaciones = [] :=
  c9_cafe_fallback "quiero un café" (by decide) (by decide)

/-! ### C3 -/

/-- C3: the total is derived and never independently settable — a fresh
session starts with a total that is the recomputation from its (empty)
items and customizations, and every conversation turn preserves the
property that the stored total equals the sum of the stored item prices
plus the stored customization prices (with a missing price contributing
zero). -/
theorem c3_total_recomputed :
    (∀ caller callSid, totalInv (P5.newState caller callSid)) ∧
    (∀ (t : String) (st : V2.Estado), totalInv st →
      totalInv (V2.procesarConversacion t st).estadoActualizado) := by
  constructor
  · intro caller callSid; rfl
  · intro t st h
    unfold V2.procesarConversacion
    split
    · simp only [V2.procesarPedido]
      split
      · rfl
      · split
        · rfl
        · rfl
    · exact h
    · simp only [V2.procesarConfirmacionPositiva]
      split
      · exact h
      · exact h
    · exact h
    · simp only [V2.procesarPago]
      split
      · exact h
      · exact h
    · simp only [V2.procesarIdentificacion, V2.extraerDatosCliente]
      repeat' split
      all_goals exact h
    · exact h

/-- C3 (witness: the invariant holds concretely and is concretely
preserved by an ordering turn). -/
theorem c3_total_recomputed_witness :
    totalInv (P5.newState "+5215550001" "CA300") ∧
    totalInv (V2.procesarConversacion "quiero un capuchino y avena"
      (P5.newState "+5215550001" "CA300")).estadoActualizado :=
  ⟨c3_total_recomputed.1 "+5215550001" "CA300",
   c3_total_recomputed.2 "quiero un capuchino y avena" (P5.newState "+5215550001" "CA300")
     (c3_total_recomputed.1 "+5215550001" "CA300")⟩

/-! ### C4 -/

/-- The distinct names of the fixed product catalogue. -/
theorem productos_nombres_nodup : ((V2.productos.map fun p => p.nombre).Nodup) := by
  decide

/-- C4: a conversation turn never introduces a duplicate item name — an
update whose detected products include an already-present name skips those
products, so name uniqueness of the item sequence is preserved (and with
it, by the derived total of calcularTotal, each distinct name is charged
once). -/
theorem c4_items_nodup (t : String) (st : V2.Estado) (h : nodupNombres st.items) :
    nodupNombres (V2.procesarConversacion t st).estadoActualizado.items := by
  unfold V2.procesarConversacion
  split
  · simp only [V2.procesarPedido]
    have main : nodupNombres (st.items ++
        ((V2.productos.filter fun producto =>
          (producto.keywords.any fun k => includes (toLowerStr t) k) &&
          !(st.items.any fun i => i.nombre == producto.nombre)).map
          fun producto =>
            { nombre := producto.nombre, precio := some producto.precio,
              area := producto.area, area_preparacion := producto.area })) := by
      unfold nodupNombres
      rw [List.map_append, List.nodup_append]
      refine ⟨h, ?_, ?_⟩
      · rw [List.map_map]
        have hsub : ((V2.productos.filter fun producto =>
            (producto.keywords.any fun k => includes (toLowerStr t) k) &&
            !(st.items.any fun i => i.nombre == producto.nombre)).map
              fun p => p.nombre).Sublist (V2.productos.map fun p => p.nombre) :=
          (List.filter_sublist _).map _
        exact productos_nombres_nodup.sublist hsub
      · intro x hx hx'
        rw [List.map_map] at hx'
        simp only [List.mem_map, List.mem_filter, Bool.and_eq_true, Bool.not_eq_true',
          Function.comp] at hx'
        obtain ⟨p, ⟨_, _, hnotin⟩, hpn⟩ := hx'
        simp only [List.mem_map] at hx
        obtain ⟨i, hi, hin⟩ := hx
        rw [List.any_eq_false] at hnotin
        exact hnotin i hi (beq_iff_eq.mpr (hin.trans hpn.symm))
    split
    · exact main
    · split
      · exact main
      · exact main
  · exact h
  · simp only [V2.procesarConfirmacionPositiva]
    split
    · exact h
    · exact h
  · exact h
  · simp only [V2.procesarPago]
    split
    · exact h
    · exact h
  · simp only [V2.procesarIdentificacion, V2.extraerDatosCliente]
    repeat' split
    all_goals exact h
  · exact h

/-- C4 (witness: re-ordering an already-present product leaves the item
names duplicate-free). -/
theorem c4_items_nodup_witness :
    nodupNombres (V2.procesarConversacion "otro capuchino por favor"
      { caller := "+5215550001", callSid := "CA400",
        items := [{ nombre := "Capuchino", precio := some 450, area := "barra", area_preparacion := "barra" }],
        personalizaciones := [], total := 450, stage := "CUSTOMIZATION",
        nombreCliente := "Cliente Anónimo", telefonoCliente := "+5215550001" }).estadoActualizado.items :=
  c4_items_nodup "otro capuchino por favor" _ (by decide)

/-! ### C5 -/

/-- The summary message always embeds the formatted total statement. -/
theorem generarResumen_mentions_total (st : V2.Estado) :
    includes (V2.generarResumen st).mensaje
      ("El total es de $" ++ formatFixed2 st.total ++ ".") = true := by
  have hB : (". El total es de $" : String) = ". " ++ "El total es de $" := by decide
  have hC : (". ¿Es correcto?" : String) = "." ++ " ¿Es correcto?" := by decide
  have hmsg : (V2.generarResumen st).mensaje =
      ("Muy bien. Entonces, tu pedido final es: " ++
        (if st.personalizaciones.length > 0 then
          String.intercalate ", " (st.items.map fun item => item.nombre) ++ " con " ++
            String.intercalate " y " (st.personalizaciones.map fun c => c.name) ++ "."
         else String.intercalate ", " (st.items.map fun item => item.nombre)) ++ ". ") ++
      ("El total es de $" ++ formatFixed2 st.total ++ ".") ++ " ¿Es correcto?" := by
    show "Muy bien. Entonces, tu pedido final es: " ++ _ ++ ". El total es de $" ++
      formatFixed2 st.total ++ ". ¿Es correcto?" = _
    rw [hB, hC]
    simp only [String.append_assoc]
  rw [hmsg]
  exact includes_append_middle _ _ _

/-- C5 (counterexample): a turn whose resulting stage is FINALIZED does not
have the total appended — the identification turn finalizes the order with
an utterance that never mentions the 4.50 total of the pending order. -/
theorem c5_finalized_without_total_counterexample :
    (V2.procesarConversacion "Juan Perez"
      { caller := "+5215550001", callSid := "CA500",
        items := [{ nombre := "Capuchino", precio := some 450, area := "barra", area_preparacion := "barra" }],
        personalizaciones := [], total := 450, stage := "IDENTIFICATION",
        nombreCliente := "Cliente Anónimo", telefonoCliente := "+5215550001" }).estadoActualizado.stage
      = "FINALIZED" ∧
    includes (V2.procesarConversacion "Juan Perez"
      { caller := "+5215550001", callSid := "CA500",
        items := [{ nombre := "Capuchino", precio := some 450, area := "barra", area_preparacion := "barra" }],
        personalizaciones := [], total := 450, stage := "IDENTIFICATION",
        nombreCliente := "Cliente Anónimo", telefonoCliente := "+5215550001" }).mensaje
      (formatFixed2 450) = false := by
  decide

/-- C5 (amended): the only turns that move the order to CONFIRMATION are the
negative-confirmation turns, which answer through the order summary, and
that summary always embeds the formatted total statement; no appending
mechanism exists for other terminal-bound turns, and in particular a
FINALIZED-entering identification turn does not mention the total. -/
theorem c5_confirmation_mentions_total (t : String) (st : V2.Estado)
    (hno : V2.determinarIntencion t = "CONFIRMANDO_NO") :
    (V2.procesarConversacion t st).estadoActualizado.stage = "CONFIRMATION" ∧
    includes (V2.procesarConversacion t st).mensaje
      ("El total es de $" ++ formatFixed2 st.total ++ ".") = true := by
  unfold V2.procesarConversacion
  split
  all_goals rename_i heq
  · rw [hno] at heq; simp at heq
  · rw [hno] at heq; simp at heq
  · rw [hno] at heq; simp at heq
  · exact ⟨rfl, generarResumen_mentions_total st⟩
  · rw [hno] at heq; simp at heq
  · rw [hno] at heq; simp at heq
  · exact absurd hno (by simp_all)

/-- C5 (witness: a concrete negative confirmation hears the total before
being asked to confirm). -/
theorem c5_confirmation_mentions_total_witness :
    (V2.procesarConversacion "no gracias"
      { caller := "+5215550001", callSid := "CA501",
        items := [{ nombre := "Capuchino", precio := some 450, area := "barra", area_preparacion := "barra" }],
        personalizaciones := [], total := 450, stage := "UPSELL",
        nombreCliente := "Cliente Anónimo", telefonoCliente := "+5215550001" }).estadoActualizado.stage
      = "CONFIRMATION" ∧
    includes (V2.procesarConversacion "no gracias"
      { caller := "+5215550001", callSid := "CA501",
        items := [{ nombre := "Capuchino", precio := some 450, area := "barra", area_preparacion := "barra" }],
        personalizaciones := [], total := 450, stage := "UPSELL",
        nombreCliente := "Cliente Anónimo", telefonoCliente := "+5215550001" }).mensaje
      ("El total es de $" ++ formatFixed2 450 ++ ".") = true :=
  c5_confirmation_mentions_total "no gracias" _ (by decide)

/-! ### C7 -/

/-- C7 (counterexample): session creation is keyed on the absent transcript,
not on the absent session — a turn that carries speech but has no prior
session for its callId does invoke the oracle, and does not emit the fixed
greeting. -/
theorem c7_greeting_counterexample :
    (P5.twilioConversation (fun _ => none) V2.procesarConversacion none
      "+5215550001" "CA700" (some "quiero un capuchino")).oracleInvoked = true ∧
    (P5.twilioConversation (fun _ => none) V2.procesarConversacion none
      "+5215550001" "CA700" (some "quiero un capuchino")).utterances ≠ [P5.saludoInicial] := by
  decide

/-- C7 (amended): for every turn with no captured transcript, the controller
fetches or creates the session — created at INITIAL_ORDER with empty items
and zero total when the callId had none — emits the fixed greeting, keeps
the call open, and does not invoke the oracle; the greeting is keyed on
transcript absence rather than on session absence. -/
theorem c7_first_turn_greeting (registry : P5.Registry)
    (ia : String → V2.Estado → V2.Respuesta) (dbResult : Option P5.Orden)
    (caller callSid : String) (hnew : registry callSid = none) :
    (P5.twilioConversation registry ia dbResult caller callSid none).registry callSid =
      some (P5.newState caller callSid) ∧
    (P5.newState caller callSid).stage = "INITIAL_ORDER" ∧
    (P5.newState caller callSid).items = [] ∧
    (P5.newState caller callSid).total = 0 ∧
    (P5.twilioConversation registry ia dbResult caller callSid none).utterances =
      [P5.saludoInicial] ∧
    (P5.twilioConversation registry ia dbResult caller callSid none).hangup = false ∧
    (P5.twilioConversation registry ia dbResult caller callSid none).oracleInvoked = false ∧
    (P5.twilioConversation registry ia dbResult caller callSid none).dbWrite = none := by
  unfold P5.twilioConversation P5.getOrCreateState
  rw [hnew]
  simp [P5.newState]

/-- C7 (witness at a concrete silent first turn). -/
theorem c7_first_turn_greeting_witness :
    (P5.twilioConversation (fun _ => none) V2.procesarConversacion none
      "+5215550001" "CA701" none).registry "CA701" =
      some (P5.newState "+5215550001" "CA701") ∧
    (P5.newState "+5215550001" "CA701").stage = "INITIAL_ORDER" ∧
    (P5.newState "+5215550001" "CA701").items = [] ∧
    (P5.newState "+5215550001" "CA701").total = 0 ∧
    (P5.twilioConversation (fun _ => none) V2.procesarConversacion none
      "+5215550001" "CA701" none).utterances = [P5.saludoInicial] ∧
    (P5.twilioConversation (fun _ => none) V2.procesarConversacion none
      "+5215550001" "CA701" none).hangup = false ∧
    (P5.twilioConversation (fun _ => none) V2.procesarConversacion none
      "+5215550001" "CA701" none).oracleInvoked = false ∧
    (P5.twilioConversation (fun _ => none) V2.procesarConversacion none
      "+5215550001" "CA701" none).dbWrite = none :=
  c7_first_turn_greeting (fun _ => none) V2.procesarConversacion none
    "+5215550001" "CA701" rfl

/-! ### C8 -/

/-- The closing utterance contains the returned order identifier. -/
theorem cierreOrden_contains_id (id : Nat) :
    includes (P5.cierreOrden id) (toString id) = true :=
  includes_append_middle "Tu orden ha sido registrada con el número " (toString id)
    ". ¡Gracias por llamar a Cafe Delicia!"

/-- C8: on a turn of an existing session, if the reconciled stage is
FINALIZED then the item list, customer phone, final transcript (carrying
name and total) and customer name are handed to persistence, the call is
hung up and the session is deleted; when the write succeeds, the
area-partitioned items of the stored order are handed to notification and
the closing utterance contains the returned order identifier.  When the
reconciled stage is not FINALIZED, the call stays open and the session
stays registered with the reconciled state — the registry holds a session
exactly while its call is active and not yet finalized or aborted. -/
theorem c8_finalization (registry : P5.Registry)
    (ia : String → V2.Estado → V2.Respuesta) (dbResult : Option P5.Orden)
    (caller callSid : String) (st : V2.Estado) (sr : String)
    (hses : registry callSid = some st) :
    ((ia sr st).estadoActualizado.stage = "FINALIZED" →
      (P5.twilioConversation registry ia dbResult caller callSid (some sr)).dbWrite =
        some ((ia sr st).estadoActualizado.items,
          (ia sr st).estadoActualizado.telefonoCliente,
          P5.transcripcionFinal (ia sr st).estadoActualizado,
          (ia sr st).estadoActualizado.nombreCliente) ∧
      (P5.twilioConversation registry ia dbResult caller callSid (some sr)).hangup = true ∧
      (P5.twilioConversation registry ia dbResult caller callSid (some sr)).registry callSid = none ∧
      (∀ orden, dbResult = some orden →
        (P5.twilioConversation registry ia dbResult caller callSid (some sr)).notifications =
          P5.itemsPorArea orden.items ∧
        (P5.twilioConversation registry ia dbResult caller callSid (some sr)).utterances =
          [(ia sr st).mensaje, P5.cierreOrden orden.id] ∧
        includes (P5.cierreOrden orden.id) (toString orden.id) = true)) ∧
    ((ia sr st).estadoActualizado.stage ≠ "FINALIZED" →
      (P5.twilioConversation registry ia dbResult caller callSid (some sr)).hangup = false ∧
      (P5.twilioConversation registry ia dbResult caller callSid (some sr)).registry callSid =
        some (ia sr st).estadoActualizado ∧
      (P5.twilioConversation registry ia dbResult caller callSid (some sr)).dbWrite = none) := by
  constructor
  · intro hfin
    unfold P5.twilioConversation P5.getOrCreateState P5.updateState P5.deleteState
    rw [hses]
    simp only [hfin, beq_self_eq_true, if_pos]
    rcases dbResult with _ | orden
    · simp
    · refine ⟨rfl, rfl, by simp, ?_⟩
      intro orden2 horden2
      cases horden2
      exact ⟨rfl, rfl, cierreOrden_contains_id orden.id⟩
  · intro hnot
    unfold P5.twilioConversation P5.getOrCreateState
    rw [hses]
    have hbeq : ((ia sr st).estadoActualizado.stage == "FINALIZED") = false := by
      simpa using hnot
    simp only [hbeq, Bool.false_eq_true, if_false]
    unfold P5.updateState
    rw [hses]
    simp

/-- C8 (witness: a concrete identification turn finalizes, persists,
notifies per area, announces the order number, hangs up and deletes the
session). -/
theorem c8_finalization_witness :
    (P5.twilioConversation registryCapuchino V2.procesarConversacion (some ordenCapuchino)
      "+5215550001" "CA800" (some "Juan Perez")).hangup = true ∧
    (P5.twilioConversation registryCapuchino V2.procesarConversacion (some ordenCapuchino)
      "+5215550001" "CA800" (some "Juan Perez")).registry "CA800" = none ∧
    (P5.twilioConversation registryCapuchino V2.procesarConversacion (some ordenCapuchino)
      "+5215550001" "CA800" (some "Juan Perez")).dbWrite =
      some ((V2.procesarConversacion "Juan Perez" estadoCapuchino).estadoActualizado.items,
        (V2.procesarConversacion "Juan Perez" estadoCapuchino).estadoActualizado.telefonoCliente,
        P5.transcripcionFinal (V2.procesarConversacion "Juan Perez" estadoCapuchino).estadoActualizado,
        (V2.procesarConversacion "Juan Perez" estadoCapuchino).estadoActualizado.nombreCliente) ∧
    (P5.twilioConversation registryCapuchino V2.procesarConversacion (some ordenCapuchino)
      "+5215550001" "CA800" (some "Juan Perez")).notifications =
      P5.itemsPorArea ordenCapuchino.items ∧
    (P5.twilioConversation registryCapuchino V2.procesarConversacion (some ordenCapuchino)
      "+5215550001" "CA800" (some "Juan Perez")).utterances =
      [(V2.procesarConversacion "Juan Perez" estadoCapuchino).mensaje,
        P5.cierreOrden ordenCapuchino.id] ∧
    includes (P5.cierreOrden ordenCapuchino.id) (toString ordenCapuchino.id) = true := by
  have h := c8_finalization registryCapuchino V2.procesarConversacion (some ordenCapuchino)
    "+5215550001" "CA800" estadoCapuchino "Juan Perez" (by decide)
  obtain ⟨hwrite, hhang, hdel, hnotif⟩ := h.1 (by decide)
  obtain ⟨hn, hu, hc⟩ := hnotif ordenCapuchino rfl
  exact ⟨hhang, hdel, hwrite, hn, hu, hc⟩

/-! ### C10: helper lemmas about keyword positions -/

/-- A successful association-list lookup returns a member of the list. -/
theorem lookup_mem {α β : Type} [BEq α] [LawfulBEq α] (l : List (α × β)) (a : α) (b : β)
    (h : l.lookup a = some b) : (a, b) ∈ l := by
  induction l with
  | nil => simp [List.lookup] at h
  | cons e l ih =>
    rcases e with ⟨k, v⟩
    rw [List.lookup] at h
    cases hak : a == k
    · simp only [hak] at h
      exact List.mem_cons_of_mem _ (ih h)
    · simp only [hak] at h
      cases h
      rw [eq_of_beq hak]
      exact List.mem_cons_self _ _

/-- Within the keyword map, two base entries for the same item name agree on
the preparation area. -/
theorem kwList_area_functional :
    (V1.keywordList.all fun e1 => V1.keywordList.all fun e2 =>
      match e1.2, e2.2 with
      | V1.Kw.base n1 a1, V1.Kw.base n2 a2 => (n1 != n2) || (a1 == a2)
      | _, _ => true) = true := by
  decide

/-- The preparation area of a base name is determined by the keyword map. -/
theorem base_area_unique {w1 w2 n a1 a2 : String}
    (h1 : (w1, V1.Kw.base n a1) ∈ V1.keywordList)
    (h2 : (w2, V1.Kw.base n a2) ∈ V1.keywordList) : a1 = a2 := by
  have hall := List.all_eq_true.mp kwList_area_functional _ h1
  have h := List.all_eq_true.mp hall _ h2
  simp only [bne_self_eq_false, Bool.false_or, beq_iff_eq] at h
  exact h

/-- Keyword positions inside the prefix are unaffected by appending. -/
theorem kwAt_append_lt (p q : List String) (i : Nat) (hi : i < p.length) :
    V1.kwAt (p ++ q) i = V1.kwAt p i := by
  unfold V1.kwAt
  rw [List.getElem?_append, if_pos hi]

/-- The keyword position at the end of a snoc is the keyword of the new
token. -/
theorem kwAt_append_len (p : List String) (w : String) :
    V1.kwAt (p ++ [w]) p.length = V1.keywordMap w := by
  unfold V1.kwAt
  rw [List.getElem?_append_right (le_refl _)]
  simp

/-- Positions beyond the token list hold no keyword. -/
theorem kwAt_none_of_le (p : List String) (i : Nat) (hi : p.length ≤ i) :
    V1.kwAt p i = none := by
  unfold V1.kwAt
  rw [List.getElem?_eq_none hi]
  rfl

/-- A position holding a keyword lies inside the token list. -/
theorem lt_of_kwAt_some {p : List String} {i : Nat} {e : V1.Kw}
    (h : V1.kwAt p i = some e) : i < p.length := by
  by_contra hcon
  rw [kwAt_none_of_le p i (Nat.le_of_not_lt hcon)] at h
  cases h

/-- Bar-base positions inside the prefix are unaffected by appending. -/
theorem barraBaseAt_append_lt (p q : List String) (j : Nat) (hj : j < p.length) :
    V1.barraBaseAt (p ++ q) j ↔ V1.barraBaseAt p j := by
  unfold V1.barraBaseAt
  rw [kwAt_append_lt p q j hj]

/-- A bar-base position lies inside the token list. -/
theorem lt_of_barraBaseAt {p : List String} {j : Nat} (h : V1.barraBaseAt p j) :
    j < p.length := by
  obtain ⟨n, hn⟩ := h
  exact lt_of_kwAt_some hn

/-- Appending one token adds a bar-base position exactly when its keyword is
a bar base. -/
theorem exists_barra_append (p : List String) (w : String) :
    (∃ j, V1.barraBaseAt (p ++ [w]) j) ↔
      (∃ j, V1.barraBaseAt p j) ∨ ∃ n, V1.keywordMap w = some (.base n "barra") := by
  constructor
  · rintro ⟨j, hj⟩
    have hlt : j < p.length + 1 := by simpa using lt_of_barraBaseAt hj
    rcases Nat.lt_or_ge j p.length with hcase | hcase
    · exact .inl ⟨j, (barraBaseAt_append_lt p [w] j hcase).mp hj⟩
    · have hj' : j = p.length := by omega
      subst hj'
      obtain ⟨n, hn⟩ := hj
      rw [kwAt_append_len] at hn
      exact .inr ⟨n, hn⟩
  · rintro (⟨j, hj⟩ | ⟨n, hn⟩)
    · exact ⟨j, (barraBaseAt_append_lt p [w] j (lt_of_barraBaseAt hj)).mpr hj⟩
    · exact ⟨p.length, ⟨n, by rw [kwAt_append_len]; exact hn⟩⟩

/-- Appending one token charges a new customization name exactly when the
token is its customization keyword and a bar base keyword already
occurred. -/
theorem customCharged_append (p : List String) (w : String) (n : String) :
    customCharged (p ++ [w]) n ↔
      customCharged p n ∨
        (V1.keywordMap w = some (.custom n) ∧ ∃ j, V1.barraBaseAt p j) := by
  constructor
  · rintro ⟨i, hi, j, hji, hbar⟩
    have hij : i < p.length + 1 := by simpa using lt_of_kwAt_some hi
    have hjlt : j < p.length := by omega
    have hbar' := (barraBaseAt_append_lt p [w] j hjlt).mp hbar
    rcases Nat.lt_or_ge i p.length with hcase | hcase
    · rw [kwAt_append_lt p [w] i hcase] at hi
      exact .inl ⟨i, hi, j, hji, hbar'⟩
    · have hi' : i = p.length := by omega
      subst hi'
      rw [kwAt_append_len] at hi
      exact .inr ⟨hi, ⟨j, hbar'⟩⟩
  · rintro (⟨i, hi, j, hji, hbar⟩ | ⟨hw, j, hbar⟩)
    · exact ⟨i, by rw [kwAt_append_lt p [w] i (lt_of_kwAt_some hi)]; exact hi,
        j, hji, (barraBaseAt_append_lt p [w] j (lt_of_barraBaseAt hbar)).mpr hbar⟩
    · exact ⟨p.length, by rw [kwAt_append_len]; exact hw,
        j, lt_of_barraBaseAt hbar, (barraBaseAt_append_lt p [w] j (lt_of_barraBaseAt hbar)).mpr hbar⟩

/-- No customization is charged by an empty token list. -/
theorem customCharged_nil (n : String) : ¬ customCharged [] n := by
  rintro ⟨i, hi, _⟩
  rw [kwAt_none_of_le [] i (Nat.zero_le i)] at hi
  cases hi

/-- Extending the processed prefix by a token that neither charges a new
customization nor introduces the first bar base keyword (beyond what the
state already reflects) preserves the scan invariant with the state
unchanged. -/
theorem ScanInv_extend_inert (p : List String) (w : String) (st : V1.Scan)
    (h : ScanInv p st)
    (hcust : ∀ n, (V1.keywordMap w = some (.custom n) ∧ ∃ j, V1.barraBaseAt p j) →
      ∃ c ∈ st.personalizaciones, c.name = n)
    (hbase : (∃ n, V1.keywordMap w = some (.base n "barra")) →
      ∃ item ∈ st.items, item.area_preparacion = "barra") :
    ScanInv (p ++ [w]) st := by
  obtain ⟨h1, h2, h3, h4, h5, h6, h7⟩ := h
  refine ⟨?_, h2, h3, h4, ?_, h6, h7⟩
  · intro n
    rw [customCharged_append]
    constructor
    · intro hx
      exact .inl ((h1 n).mp hx)
    · rintro (hx | hx)
      · exact (h1 n).mpr hx
      · exact hcust n hx
  · rw [exists_barra_append]
    constructor
    · intro hx
      exact .inl (h5.mp hx)
    · rintro (hx | hx)
      · exact h5.mpr hx
      · exact hbase hx

/-- The scan invariant is preserved by one iteration of the scan loop. -/
theorem scanWord_ScanInv (p : List String) (w : String) (st : V1.Scan)
    (h : ScanInv p st) : ScanInv (p ++ [w]) (V1.scanWord st w) := by
  obtain ⟨h1, h2, h3, h4, h5, h6, h7⟩ := h
  simp only [V1.scanWord]
  split
  · rename_i name area hkw
    split
    · rename_i hfound
      refine ScanInv_extend_inert p w st ⟨h1, h2, h3, h4, h5, h6, h7⟩ ?_ ?_
      · rintro n ⟨hc, _⟩
        rw [hkw] at hc
        cases hc
      · rintro ⟨n, hn⟩
        rw [hkw] at hn
        simp only [Option.some.injEq, V1.Kw.base.injEq] at hn
        obtain ⟨hname, harea⟩ := hn
        have hmem : name ∈ st.foundBaseNames := by simpa using hfound
        obtain ⟨item, hitem, hnom⟩ := (h7 name).mp hmem
        obtain ⟨w2, hw2⟩ := h6 item hitem
        have hwmem : (w, V1.Kw.base name area) ∈ V1.keywordList :=
          lookup_mem _ _ _ hkw
        rw [hnom] at hw2
        have : item.area_preparacion = area := base_area_unique hw2 hwmem
        refine ⟨item, hitem, ?_⟩
        rw [this, harea]
    · rename_i hfound
      have hwmem : (w, V1.Kw.base name area) ∈ V1.keywordList := lookup_mem _ _ _ hkw
      refine ⟨?_, h2, h3, ?_, ?_, ?_, ?_⟩
      · intro n
        rw [customCharged_append]
        constructor
        · intro hx
          exact .inl ((h1 n).mp hx)
        · rintro (hx | ⟨hc, _⟩)
          · exact (h1 n).mpr hx
          · rw [hkw] at hc
            cases hc
      · simp only [List.foldl_append, List.foldl_cons, List.foldl_nil, List.length_append]
        omega
      · rw [exists_barra_append]
        constructor
        · rintro ⟨item, hitem, harea⟩
          rcases List.mem_append.mp hitem with hin | hin
          · exact .inl (h5.mp ⟨item, hin, harea⟩)
          · simp only [List.mem_singleton] at hin
            subst hin
            right
            exact ⟨name, by rw [hkw, ← harea]⟩
        · rintro (hx | ⟨n, hn⟩)
          · obtain ⟨item, hitem, harea⟩ := h5.mpr hx
            exact ⟨item, List.mem_append.mpr (.inl hitem), harea⟩
          · rw [hkw] at hn
            simp only [Option.some.injEq, V1.Kw.base.injEq] at hn
            refine ⟨{ nombre := name, precio := V1.itemPrice name, area_preparacion := area },
              List.mem_append.mpr (.inr (by simp)), ?_⟩
            exact hn.2
      · intro item hitem
        rcases List.mem_append.mp hitem with hin | hin
        · exact h6 item hin
        · simp only [List.mem_singleton] at hin
          subst hin
          exact ⟨w, hwmem⟩
      · intro n
        simp only [List.mem_append, List.mem_singleton]
        constructor
        · rintro (hn | hn)
          · obtain ⟨item, hitem, hnom⟩ := (h7 n).mp hn
            exact ⟨item, Or.inl hitem, hnom⟩
          · exact ⟨{ nombre := name, precio := V1.itemPrice name, area_preparacion := area },
              Or.inr rfl, hn.symm⟩
        · rintro ⟨item, hitem, hnom⟩
          rcases hitem with hin | hin
          · exact .inl ((h7 n).mpr ⟨item, hin, hnom⟩)
          · subst hin
            exact .inr hnom.symm
  · rename_i name hkw
    split
    · rename_i hcond
      rw [Bool.and_eq_true] at hcond
      obtain ⟨hbar, hdup⟩ := hcond
      have hbaritem : ∃ item ∈ st.items, item.area_preparacion = "barra" := by
        simpa using hbar
      rw [Bool.not_eq_true'] at hdup
      have hnodup : ∀ c ∈ st.personalizaciones, c.name ≠ name := by
        intro c hc
        have := List.any_eq_false.mp hdup c hc
        simpa using this
      refine ⟨?_, ?_, ?_, ?_, ?_, h6, h7⟩
      · intro n
        rw [customCharged_append]
        constructor
        · rintro ⟨c, hc, hcn⟩
          rcases List.mem_append.mp hc with hin | hin
          · exact .inl ((h1 n).mp ⟨c, hin, hcn⟩)
          · simp only [List.mem_singleton] at hin
            subst hin
            right
            refine ⟨?_, h5.mp hbaritem⟩
            rw [hkw, ← hcn]
        · rintro (hx | ⟨hc, _⟩)
          · obtain ⟨c, hcin, hcn⟩ := (h1 n).mpr hx
            exact ⟨c, List.mem_append.mpr (.inl hcin), hcn⟩
          · rw [hkw] at hc
            simp only [Option.some.injEq, V1.Kw.custom.injEq] at hc
            exact ⟨{ name := name, cost := V1.customizationPrice },
              List.mem_append.mpr (.inr (by simp)), hc⟩
      · intro c hc
        rcases List.mem_append.mp hc with hin | hin
        · exact h2 c hin
        · simp only [List.mem_singleton] at hin
          subst hin
          rfl
      · rw [List.map_append, List.nodup_append]
        refine ⟨h3, by simp, ?_⟩
        intro x hx
        simp only [List.map_cons, List.map_nil, List.mem_singleton]
        simp only [List.mem_map] at hx
        obtain ⟨c, hc, hcx⟩ := hx
        intro hxname
        exact hnodup c hc (hcx.trans hxname)
      · simp only [List.length_append, List.length_singleton, Nat.mul_add, Nat.mul_one]
        omega
      · rw [exists_barra_append]
        constructor
        · intro hx
          exact .inl (h5.mp hx)
        · rintro (hx | ⟨n, hn⟩)
          · exact h5.mpr hx
          · rw [hkw] at hn
            cases hn
    · rename_i hcond
      refine ScanInv_extend_inert p w st ⟨h1, h2, h3, h4, h5, h6, h7⟩ ?_ ?_
      · rintro n ⟨hc, hbarex⟩
        rw [hkw] at hc
        simp only [Option.some.injEq, V1.Kw.custom.injEq] at hc
        subst hc
        have hbaritem := h5.mpr hbarex
        have hany : (st.items.any fun item => item.area_preparacion == "barra") = true := by
          simpa using hbaritem
        rw [hany, Bool.true_and, Bool.not_eq_true', Bool.not_eq_false] at hcond
        obtain ⟨c, hcin, hcn⟩ := List.any_eq_true.mp hcond
        exact ⟨c, hcin, by simpa using hcn⟩
      · rintro ⟨n, hn⟩
        rw [hkw] at hn
        cases hn
  · rename_i name hkw
    refine ScanInv_extend_inert p w st ⟨h1, h2, h3, h4, h5, h6, h7⟩ ?_ ?_
    · rintro n ⟨hc, _⟩
      rw [hkw] at hc
      cases hc
    · rintro ⟨n, hn⟩
      rw [hkw] at hn
      cases hn
  · rename_i hkw
    refine ScanInv_extend_inert p w st ⟨h1, h2, h3, h4, h5, h6, h7⟩ ?_ ?_
    · rintro n ⟨hc, _⟩
      rw [hkw] at hc
      cases hc
    · rintro ⟨n, hn⟩
      rw [hkw] at hn
      cases hn

/-- The scan invariant holds of the scan of any token list. -/
theorem scanWords_ScanInv (ws : List String) : ScanInv ws (V1.scanWords ws) := by
  induction ws using List.reverseRecOn with
  | nil =>
    refine ⟨?_, by simp [V1.scanWords], by simp [V1.scanWords], rfl, ?_, by simp [V1.scanWords],
      by simp [V1.scanWords]⟩
    · intro n
      exact iff_of_false (by rintro ⟨c, hc, _⟩; cases hc) (customCharged_nil n)
    · exact iff_of_false (by rintro ⟨c, hc, _⟩; cases hc)
        (by rintro ⟨j, hj⟩; exact absurd (lt_of_barraBaseAt hj) (by simp))
  | append_singleton p w ih =>
    have hstep : V1.scanWords (p ++ [w]) = V1.scanWord (V1.scanWords p) w := by
      simp [V1.scanWords, List.foldl_append]
    rw [hstep]
    exact scanWord_ScanInv p w _ ih

/-- C10: in the keyword-scan extractor, a customization name is present in
the extracted order exactly when some token is its customization keyword
and a strictly earlier token is a bar-area base keyword; each charged
customization appears once per distinct name at the fixed 0.75 surcharge,
and the total decomposes into the item prices plus that surcharge per
charged customization — so a customization spoken before any bar item, or
in a transcript without one, is ignored and contributes nothing. -/
theorem c10_customization_guard (t : String) :
    (∀ n, (∃ c ∈ (V1.procesarOrdenScan t).personalizaciones, c.name = n) ↔
       customCharged (jsWords (toLowerStr t)) n) ∧
    (∀ c ∈ (V1.procesarOrdenScan t).personalizaciones, c.cost = V1.customizationPrice) ∧
    ((V1.procesarOrdenScan t).personalizaciones.map fun c => c.name).Nodup ∧
    (V1.procesarOrdenScan t).total =
      (V1.procesarOrdenScan t).items.foldl (fun s i => s + i.precio) 0 +
        V1.customizationPrice * (V1.procesarOrdenScan t).personalizaciones.length := by
  obtain ⟨h1, h2, h3, h4, h5, h6, h7⟩ := scanWords_ScanInv (jsWords (toLowerStr t))
  simp only [V1.procesarOrdenScan, V1.cafeFallback]
  split
  · refine ⟨h1, h2, h3, ?_⟩
    simp only [List.foldl_append, List.foldl_cons, List.foldl_nil]
    omega
  · exact ⟨h1, h2, h3, h4⟩

/-- C10 (witness: in a transcript where crema is spoken before the capuchino
and again after it, only the post-item mention charges Crema Batida, and
the total decomposes accordingly). -/
theorem c10_customization_guard_witness :
    (∃ c ∈ (V1.procesarOrdenScan "con crema un capuchino y crema y avena").personalizaciones,
      c.name = "Crema Batida") ∧
    (V1.procesarOrdenScan "con crema un capuchino y crema y avena").total =
      (V1.procesarOrdenScan "con crema un capuchino y crema y avena").items.foldl
        (fun s i => s + i.precio) 0 +
        V1.customizationPrice *
          (V1.procesarOrdenScan "con crema un capuchino y crema y avena").personalizaciones.length :=
  ⟨((c10_customization_guard "con crema un capuchino y crema y avena").1 "Crema Batida").mpr
      ⟨5, by decide, 3, by decide, by decide⟩,
   (c10_customization_guard "con crema un capuchino y crema y avena").2.2.2⟩
